import Mathlib

/-!
Verification development for the warehouse RAG repository.

The repository has four Python source files:
* `app.py` — the interactive app: CSV load/save (`save_inventory_data`),
  the natural-language update interpreter (`parse_update_query`) and the
  update applier (`apply_data_updates`).
* `main-fixed.py` — the streaming pipeline: the document projector
  (`create_document_text`) and prompt builder (`build_warehouse_prompt`).
* `data_generator.py` — the inventory simulator with its atomic CSV
  writer (`atomic_csv_update`).
* `test-queries-fixed.py` — HTTP test harness (network only, not modelled).

The shallow embedding below translates those functions into Lean.
Python `int` becomes `Int`, Python `str` becomes `String`; pandas cells
are modelled by the sum type `Val` (a cell holds either an integer or a
string); a dataframe is a `List Rec` of rows; the regular expressions of
`parse_update_query` are modelled by a small backtracking matcher whose
constructs are exactly those used in the source patterns; string methods
`lower` / `strip` are modelled for ASCII text (`pyLowerChar`, `pyStripL`).
-/

/-- Value stored in one pandas cell: the source dataframe holds integers
(ProductID, CurrentStock, SalesLastMonth, TotalSales, FactoryDistanceKM)
and strings (ProductName, Location, LastSoldDate, ExpiryDate), and
`parse_update_query` produces exactly these two kinds of values. -/
inductive Val where
  | intVal (n : Int)
  | strVal (s : String)
deriving DecidableEq, Repr

/-- One row of the inventory dataframe, with the nine columns of
`InventorySchema` in `main-fixed.py` (also the columns of the CSV written
by `data_generator.py`). Cells are `Val` as in pandas, where a column can
hold any value assigned to it. -/
structure Rec where
  ProductID : Val
  ProductName : Val
  Location : Val
  CurrentStock : Val
  LastSoldDate : Val
  ExpiryDate : Val
  SalesLastMonth : Val
  TotalSales : Val
  FactoryDistanceKM : Val
deriving DecidableEq, Repr

/-- The column names of the dataframe (`df.columns` in `apply_data_updates`). -/
def COLUMNS : List String :=
  ["ProductID", "ProductName", "Location", "CurrentStock", "LastSoldDate",
   "ExpiryDate", "SalesLastMonth", "TotalSales", "FactoryDistanceKM"]

/-- Read a cell by column name (`df[...]` on one row); `none` for a name
that is not a column. -/
def getCol (r : Rec) (c : String) : Option Val :=
  if c = "ProductID" then some r.ProductID
  else if c = "ProductName" then some r.ProductName
  else if c = "Location" then some r.Location
  else if c = "CurrentStock" then some r.CurrentStock
  else if c = "LastSoldDate" then some r.LastSoldDate
  else if c = "ExpiryDate" then some r.ExpiryDate
  else if c = "SalesLastMonth" then some r.SalesLastMonth
  else if c = "TotalSales" then some r.TotalSales
  else if c = "FactoryDistanceKM" then some r.FactoryDistanceKM
  else none

/-- Write a cell by column name (`df.loc[row, key] = value` for a key that
is a known column); a non-column name writes nothing. -/
def setCol (r : Rec) (c : String) (v : Val) : Rec :=
  if c = "ProductID" then { r with ProductID := v }
  else if c = "ProductName" then { r with ProductName := v }
  else if c = "Location" then { r with Location := v }
  else if c = "CurrentStock" then { r with CurrentStock := v }
  else if c = "LastSoldDate" then { r with LastSoldDate := v }
  else if c = "ExpiryDate" then { r with ExpiryDate := v }
  else if c = "SalesLastMonth" then { r with SalesLastMonth := v }
  else if c = "TotalSales" then { r with TotalSales := v }
  else if c = "FactoryDistanceKM" then { r with FactoryDistanceKM := v }
  else r

/-- Dictionary lookup (`updates.get(key)` / `key in updates` on the parsed
update dict, modelled as an association list in insertion order). -/
def lookupVal (upds : List (String × Val)) (k : String) : Option Val :=
  match upds with
  | [] => none
  | (k2, v) :: rest => if k2 = k then some v else lookupVal rest k

/-- ASCII model of Python `str.lower` on one character: uppercase ASCII
letters map to lowercase, all other characters are unchanged. -/
def pyLowerChar (c : Char) : Char :=
  if 65 ≤ c.toNat ∧ c.toNat ≤ 90 then Char.ofNat (c.toNat + 32) else c

/-- Model of Python `str.lower` on a character list. -/
def pyLowerL (l : List Char) : List Char := l.map pyLowerChar

/-- Model of Python `str.lower` on a `String`. -/
def pyLowerS (s : String) : String := String.mk (pyLowerL s.data)

/-- Python whitespace (the class stripped by `str.strip` and matched by
regex `\s`, restricted to ASCII). -/
def isPySpace (c : Char) : Bool :=
  c == ' ' || c == '\t' || c == '\n' || c == '\r' || c == '\x0b' || c == '\x0c'

/-- Model of Python `str.strip` on a character list: drop whitespace from
both ends. -/
def pyStripL (l : List Char) : List Char :=
  (((l.dropWhile isPySpace).reverse).dropWhile isPySpace).reverse

/-- Model of Python `str.strip` on a `String`. -/
def pyStripS (s : String) : String := String.mk (pyStripL s.data)

/-! ### A small regex matcher

The seven patterns of `parse_update_query` use only: literal text, `.`,
`\d`, `\w`, `\s`, `[0-9-]`, greedy star `X*`, lazy star `X*?`, a capturing
greedy plus `(X+)`, optional groups `(?:...)?` and alternation
`(?:...|...)` — and every star/plus is over a single character class.
The matcher below implements exactly these constructs with Python's
backtracking priorities (leftmost start position first; greedy longest
first; lazy shortest first; left alternative first; optional present
first) and `re.search` semantics (the match need not reach the end). -/

/-- The character classes occurring in the source patterns. -/
inductive CharCls where
  | dot      -- `.` : any character except newline
  | digit    -- `\d`
  | word     -- `\w`
  | space    -- `\s`
  | dateChar -- `[0-9-]`
deriving DecidableEq, Repr

/-- Membership of a character in a class (ASCII model of Python `re`). -/
def clsMatch : CharCls → Char → Bool
  | .dot, c => c != '\n'
  | .digit, c => c.isDigit
  | .word, c => c.isAlphanum || c == '_'
  | .space, c => isPySpace c
  | .dateChar, c => c.isDigit || c == '-'

/-- One element of a pattern. Stars and the capturing plus range over a
single character class, as in all the source patterns. -/
inductive Rx where
  | lit (w : List Char)        -- literal text
  | starG (c : CharCls)        -- greedy `c*`
  | starL (c : CharCls)        -- lazy `c*?`
  | grp (c : CharCls)          -- capturing greedy `(c+)`
  | opt (es : List Rx)         -- `(?:es)?` (greedy: present first)
  | alt (a b : List Rx)        -- `(?:a|b)` (left first)
deriving Repr

/-- Length of the longest prefix of `s` lying in class `c` (the most a
star/plus over `c` can consume). -/
def runLen (c : CharCls) : List Char → Nat
  | [] => 0
  | ch :: t => if clsMatch c ch then runLen c t + 1 else 0

/-- Backtracking matcher for a pattern (a sequence of elements) against a
prefix of `s`; returns the captured groups of the highest-priority match.
The `fuel` argument only bounds recursion depth: every recursive call
strictly decreases the total size of the element list, which for the
seven source patterns is below 30, so `fuel = 100` in `searchRx` is never
exhausted. -/
def matchSeq : Nat → List Rx → List Char → Option (List (List Char))
  | 0, _, _ => none
  | _ + 1, [], _ => some []
  | fuel + 1, e :: rest, s =>
    match e with
    | .lit w => if s.take w.length = w then matchSeq fuel rest (s.drop w.length) else none
    | .starG c =>
      ((List.range (runLen c s + 1)).reverse).findSome?
        (fun j => matchSeq fuel rest (s.drop j))
    | .starL c =>
      (List.range (runLen c s + 1)).findSome?
        (fun j => matchSeq fuel rest (s.drop j))
    | .grp c =>
      ((List.range (runLen c s)).reverse).findSome?
        (fun j0 => (matchSeq fuel rest (s.drop (j0 + 1))).map
          (fun gs => s.take (j0 + 1) :: gs))
    | .opt es =>
      match matchSeq fuel (es ++ rest) s with
      | some gs => some gs
      | none => matchSeq fuel rest s
    | .alt a b =>
      match matchSeq fuel (a ++ rest) s with
      | some gs => some gs
      | none => matchSeq fuel (b ++ rest) s

/-- Model of `re.search(pattern, s)`: try each start position from the
left; at the first position where the pattern matches, return its groups. -/
def searchRx (p : List Rx) (s : List Char) : Option (List (List Char)) :=
  (List.range (s.length + 1)).findSome? (fun i => matchSeq 100 p (s.drop i))

/-! ### The seven source patterns of `parse_update_query`

Each is a direct transcription of the corresponding Python regex. -/

/-- Pattern `product.*?(?:id|number)?\s*(\d+)` (ProductID extraction). -/
def productIdPat : List Rx :=
  [.lit "product".data, .starL .dot, .opt [.alt [.lit "id".data] [.lit "number".data]],
   .starG .space, .grp .digit]

/-- Pattern `update.*product.*name.*?(\w+).*?(?:as|to)\s*(\w+)`. -/
def productNamePat : List Rx :=
  [.lit "update".data, .starG .dot, .lit "product".data, .starG .dot, .lit "name".data,
   .starL .dot, .grp .word, .starL .dot, .alt [.lit "as".data] [.lit "to".data],
   .starG .space, .grp .word]

/-- Pattern `update.*(?:stock|current.*?stock).*?(?:to|as)\s*(\d+)`. -/
def currentStockPat : List Rx :=
  [.lit "update".data, .starG .dot,
   .alt [.lit "stock".data] [.lit "current".data, .starL .dot, .lit "stock".data],
   .starL .dot, .alt [.lit "to".data] [.lit "as".data], .starG .space, .grp .digit]

/-- Pattern `update.*last.*?sold.*?date.*?(?:to|as)\s*([0-9-]+)`. -/
def lastSoldDatePat : List Rx :=
  [.lit "update".data, .starG .dot, .lit "last".data, .starL .dot, .lit "sold".data,
   .starL .dot, .lit "date".data, .starL .dot, .alt [.lit "to".data] [.lit "as".data],
   .starG .space, .grp .dateChar]

/-- Pattern `update.*expiry.*?date.*?(?:to|as)\s*([0-9-]+)`. -/
def expiryDatePat : List Rx :=
  [.lit "update".data, .starG .dot, .lit "expiry".data, .starL .dot, .lit "date".data,
   .starL .dot, .alt [.lit "to".data] [.lit "as".data], .starG .space, .grp .dateChar]

/-- Pattern `update.*(?:sales.*?last.*?month|last.*?month.*?sales).*?(?:to|as)\s*(\d+)`. -/
def salesLastMonthPat : List Rx :=
  [.lit "update".data, .starG .dot,
   .alt [.lit "sales".data, .starL .dot, .lit "last".data, .starL .dot, .lit "month".data]
        [.lit "last".data, .starL .dot, .lit "month".data, .starL .dot, .lit "sales".data],
   .starL .dot, .alt [.lit "to".data] [.lit "as".data], .starG .space, .grp .digit]

/-- Pattern `update.*location.*?(?:to|as)\s*(\w+)`. -/
def locationPat : List Rx :=
  [.lit "update".data, .starG .dot, .lit "location".data, .starL .dot,
   .alt [.lit "to".data] [.lit "as".data], .starG .space, .grp .word]

/-- Pattern `update.*(?:factory.*?distance|distance.*?factory).*?(?:to|as)\s*(\d+)`. -/
def factoryDistancePat : List Rx :=
  [.lit "update".data, .starG .dot,
   .alt [.lit "factory".data, .starL .dot, .lit "distance".data]
        [.lit "distance".data, .starL .dot, .lit "factory".data],
   .starL .dot, .alt [.lit "to".data] [.lit "as".data], .starG .space, .grp .digit]

/-- Python `int(...)` on a captured `\d+` group. -/
def digitsToInt (g : List Char) : Int :=
  (g.foldl (fun acc c => 10 * acc + (c.toNat - 48)) 0 : Nat)

/-- One entry of the update dict from a pattern whose group is converted
with `int(...)` (`current_stock`, `sales_last_month`, `factory_distance`,
and the ProductID extraction). -/
def segInt (field : String) (r : Option (List (List Char))) : List (String × Val) :=
  match r with
  | some (g :: _) => [(field, Val.intVal (digitsToInt g))]
  | _ => []

/-- One entry of the update dict from a pattern whose group is kept as a
string (`last_sold_date`, `expiry_date`, `location`). -/
def segStr (field : String) (r : Option (List (List Char))) : List (String × Val) :=
  match r with
  | some (g :: _) => [(field, Val.strVal (String.mk g))]
  | _ => []

/-- The two entries contributed by the `product_name` pattern: group 1 is
stored under `old_name`, group 2 under `ProductName`. -/
def segName (r : Option (List (List Char))) : List (String × Val) :=
  match r with
  | some (g1 :: g2 :: _) =>
    [("old_name", Val.strVal (String.mk g1)), ("ProductName", Val.strVal (String.mk g2))]
  | _ => []

/-- Embedding of `parse_update_query` (`app.py` lines 89–124): lowercase
and strip the command, extract ProductID, then try the seven field
patterns in dict insertion order. Key names follow the source's
`field.replace('_',' ').title().replace(' ','')` conversion — note that
`factory_distance` becomes `FactoryDistance`, which is not a column name. -/
def parse_update_query (query : String) : List (String × Val) :=
  let q := pyStripL (pyLowerL query.data)
  segInt "ProductID" (searchRx productIdPat q)
  ++ segName (searchRx productNamePat q)
  ++ segInt "CurrentStock" (searchRx currentStockPat q)
  ++ segStr "LastSoldDate" (searchRx lastSoldDatePat q)
  ++ segStr "ExpiryDate" (searchRx expiryDatePat q)
  ++ segInt "SalesLastMonth" (searchRx salesLastMonthPat q)
  ++ segStr "Location" (searchRx locationPat q)
  ++ segInt "FactoryDistance" (searchRx factoryDistancePat q)

/-! ### `apply_data_updates` (`app.py` lines 126–152) -/

/-- Python `str(value)` as used in the `f"{key}: {value}"` report. -/
def valStr : Val → String
  | .intVal n => toString n
  | .strVal s => s

/-- Outcome of `apply_data_updates`, one constructor per `return`
statement of the source; `renderMsg` gives the literal message text. -/
inductive Msg where
  | noData
  | noTarget
  | notFound
  | success (fields : List String)
  | noValidUpdates
deriving DecidableEq, Repr

/-- The literal message strings returned by `apply_data_updates`. -/
def renderMsg : Msg → String
  | .noData => "No data to update"
  | .noTarget => "Could not identify which product to update. Please specify ProductID or product name."
  | .notFound => "Product not found in inventory"
  | .success fields => "Successfully updated: " ++ String.intercalate ", " fields
  | .noValidUpdates => "No valid updates found"

/-- Row test for the name selector:
`df['ProductName'].str.lower() == updates['old_name'].lower()`.
On a non-string cell pandas' `.str.lower()` yields NaN, which compares
unequal to any string. -/
def nameMatches (r : Rec) (oldName : String) : Bool :=
  match r.ProductName with
  | .strVal t => pyLowerL t.data = pyLowerL oldName.data
  | .intVal _ => false

/-- The row mask of `apply_data_updates`: by ProductID when the parsed
update has one, else by case-insensitive product name via `old_name`
(which the parser only ever produces as a string), else no selector. -/
def resolveMask (df : List Rec) (upds : List (String × Val)) : Option (List Bool) :=
  match lookupVal upds "ProductID" with
  | some v => some (df.map (fun r => r.ProductID = v))
  | none =>
    match lookupVal upds "old_name" with
    | some (.strVal s) => some (df.map (fun r => nameMatches r s))
    | _ => none

/-- The update loop of `apply_data_updates`: for each `(key, value)` of
the parsed dict in order, if `key` is a known column write `value` to
every masked row and report `"key: value"`; other keys are skipped. -/
def applyStage : List Rec → List Bool → List (String × Val) → List Rec × List String
  | df, _, [] => (df, [])
  | df, mask, (k, v) :: rest =>
    if k ∈ COLUMNS then
      let df2 := List.zipWith (fun r m => if m then setCol r k v else r) df mask
      let p := applyStage df2 mask rest
      (p.1, (k ++ ": " ++ valStr v) :: p.2)
    else applyStage df mask rest

/-- Embedding of `apply_data_updates`: empty data check, row-mask
resolution, existence check, then the update loop; success exactly when
at least one field was reported. -/
def apply_data_updates (df : List Rec) (upds : List (String × Val)) : List Rec × Msg :=
  if df.isEmpty then (df, .noData)
  else
    match resolveMask df upds with
    | none => (df, .noTarget)
    | some mask =>
      if mask.any id then
        let p := applyStage df mask upds
        if p.2.isEmpty then (p.1, .noValidUpdates) else (p.1, .success p.2)
      else (df, .notFound)

/-! ### The document projector `create_document_text` (`main-fixed.py` lines 31–100) -/

/-- Stock classification (lines 38–46 of `main-fixed.py`). -/
def stock_status (current_stock : Int) : String :=
  if current_stock = 0 then "OUT OF STOCK"
  else if current_stock < 10 then "CRITICAL LOW STOCK"
  else if current_stock < 50 then "LOW STOCK"
  else "ADEQUATE STOCK"

/-- Demand classification (lines 66–74). -/
def demand_status (sales_last_month : Int) : String :=
  if sales_last_month > 100 then "HIGH DEMAND"
  else if sales_last_month > 50 then "MEDIUM DEMAND"
  else if sales_last_month > 0 then "LOW DEMAND"
  else "NO RECENT SALES"

/-- Distance classification (lines 76–82). -/
def distance_status (factory_distance_km : Int) : String :=
  if factory_distance_km ≤ 5 then "CLOSE TO FACTORY"
  else if factory_distance_km ≤ 15 then "MODERATE DISTANCE"
  else "FAR FROM FACTORY"

/-- Priority label (line 97): HIGH when stock is critical/out or expiry
is urgent. -/
def priority_label (stockSt expirySt : String) : String :=
  if (stockSt = "CRITICAL LOW STOCK" ∨ stockSt = "OUT OF STOCK")
      ∨ expirySt = "EXPIRES SOON - URGENT"
  then "HIGH PRIORITY" else "NORMAL PRIORITY"

/-- Whether year `y` is a Gregorian leap year. -/
def isLeapYear (y : Nat) : Bool :=
  (y % 4 == 0 && y % 100 != 0) || y % 400 == 0

/-- Number of days of month `m` (1–12) in year `y`. -/
def monthLen (y m : Nat) : Nat :=
  if m = 2 then (if isLeapYear y then 29 else 28)
  else if m = 4 ∨ m = 6 ∨ m = 9 ∨ m = 11 then 30
  else 31

/-- Days in year `y` strictly before month `m`. -/
def daysBeforeMonth (y : Nat) : Nat → Nat
  | 0 => 0
  | 1 => 0
  | m + 1 => daysBeforeMonth y m + monthLen y m

/-- Proleptic Gregorian ordinal as in Python `datetime.date.toordinal`
(0001-01-01 has ordinal 1); date subtraction `(a - b).days` is the
difference of ordinals. -/
def toOrdinal (y m d : Nat) : Nat :=
  365 * (y - 1) + (y - 1) / 4 - (y - 1) / 100 + (y - 1) / 400 + daysBeforeMonth y m + d

/-- Model of `datetime.strptime(s, '%Y-%m-%d').date()`: `%Y` is exactly
four digits; `%m` is `1[0-2]|0[1-9]|[1-9]`; `%d` is
`3[01]|[12]\d|0[1-9]|[1-9]`; the whole string must be consumed; then the
`datetime` constructor checks the day against the month length and
rejects year 0. Returns `(year, month, day)` or `none` (the source's
`except` path). -/
def parseDate (s : String) : Option (Nat × Nat × Nat) :=
  match s.data with
  | y1 :: y2 :: y3 :: y4 :: '-' :: rest =>
    if y1.isDigit ∧ y2.isDigit ∧ y3.isDigit ∧ y4.isDigit then
      let y := (y1.toNat - 48) * 1000 + (y2.toNat - 48) * 100 + (y3.toNat - 48) * 10 + (y4.toNat - 48)
      let md : Option (Nat × List Char) :=
        match rest with
        | m1 :: m2 :: '-' :: rest2 =>
          if m1 = '1' ∧ '0' ≤ m2 ∧ m2 ≤ '2' then some (10 + (m2.toNat - 48), rest2)
          else if m1 = '0' ∧ '1' ≤ m2 ∧ m2 ≤ '9' then some (m2.toNat - 48, rest2)
          else none
        | m1 :: '-' :: rest2 =>
          if '1' ≤ m1 ∧ m1 ≤ '9' then some (m1.toNat - 48, rest2) else none
        | _ => none
      match md with
      | none => none
      | some (m, rest2) =>
        let dd : Option Nat :=
          match rest2 with
          | [d1, d2] =>
            if d1 = '3' ∧ ('0' ≤ d2 ∧ d2 ≤ '1') then some (30 + (d2.toNat - 48))
            else if ('1' ≤ d1 ∧ d1 ≤ '2') ∧ d2.isDigit then some ((d1.toNat - 48) * 10 + (d2.toNat - 48))
            else if d1 = '0' ∧ ('1' ≤ d2 ∧ d2 ≤ '9') then some (d2.toNat - 48)
            else none
          | [d1] => if '1' ≤ d1 ∧ d1 ≤ '9' then some (d1.toNat - 48) else none
          | _ => none
        match dd with
        | none => none
        | some d => if 1 ≤ y ∧ d ≤ monthLen y m then some (y, m, d) else none
    else none
  | _ => none

/-- Expiry classification relative to a reference date (the spec's
`project(record, referenceDate)` shape); the source instantiates the
reference date with the constant `date(2025, 9, 22)`. -/
def expiry_status_at (ref : Nat × Nat × Nat) (expiry_date : String) : String :=
  match parseDate expiry_date with
  | none => "UNKNOWN EXPIRY"
  | some (y, m, d) =>
    let days : Int := (toOrdinal y m d : Int) - (toOrdinal ref.1 ref.2.1 ref.2.2 : Int)
    if days < 0 then "EXPIRED"
    else if days ≤ 7 then "EXPIRES SOON - URGENT"
    else if days ≤ 30 then "EXPIRES THIS MONTH"
    else "FRESH"

/-- Expiry classification of the source (lines 48–64): the reference
date is the fixed constant `date(2025, 9, 22)`, not the wall clock. -/
def expiry_status (expiry_date : String) : String :=
  match parseDate expiry_date with
  | none => "UNKNOWN EXPIRY"
  | some (y, m, d) =>
    let days : Int := (toOrdinal y m d : Int) - (toOrdinal 2025 9 22 : Int)
    if days < 0 then "EXPIRED"
    else if days ≤ 7 then "EXPIRES SOON - URGENT"
    else if days ≤ 30 then "EXPIRES THIS MONTH"
    else "FRESH"

/-- The interior of the document f-string (lines 85–98), without the
leading and trailing newline of the triple-quoted literal. -/
def document_interior (product_id : Int) (product_name location : String)
    (current_stock : Int) (last_sold_date expiry_date : String)
    (sales_last_month total_sales factory_distance_km : Int)
    (stockSt expirySt demandSt distSt prioSt : String) : String :=
  "Product Information:\nProduct ID: " ++ (toString product_id ++ ("\nProduct Name: " ++ (product_name ++ ("\nLocation: " ++ (location ++ ("\nCurrent Stock: " ++ (toString current_stock ++ (" units (" ++ (stockSt ++ (")\nLast Sold Date: " ++ (last_sold_date ++ ("\nExpiry Date: " ++ (expiry_date ++ (" (" ++ (expirySt ++ (")\nSales Last Month: " ++ (toString sales_last_month ++ (" units (" ++ (demandSt ++ (")\nTotal Sales: " ++ (toString total_sales ++ (" units\nFactory Distance: " ++ (toString factory_distance_km ++ (" km (" ++ (distSt ++ (")\nStatus Summary: " ++ (stockSt ++ (", " ++ (expirySt ++ (", " ++ (demandSt ++ ("\nPriority: " ++ (prioSt)))))))))))))))))))))))))))))))))

/-- Embedding of the projector `create_document_text`: compute the four
classifications and the priority, render the document, and `strip()` it. -/
def create_document_text (product_id : Int) (product_name location : String)
    (current_stock : Int) (last_sold_date expiry_date : String)
    (sales_last_month total_sales factory_distance_km : Int) : String :=
  let stockSt := stock_status current_stock
  let expirySt := expiry_status expiry_date
  let demandSt := demand_status sales_last_month
  let distSt := distance_status factory_distance_km
  let prioSt := priority_label stockSt expirySt
  pyStripS ("\n" ++ document_interior product_id product_name location current_stock
    last_sold_date expiry_date sales_last_month total_sales factory_distance_km
    stockSt expirySt demandSt distSt prioSt ++ "\n")

/-- The spec's `project(record, referenceDate)`: the same projector with
the reference date as an explicit parameter instead of the source's
constant `date(2025, 9, 22)`. -/
def project_at (ref : Nat × Nat × Nat) (product_id : Int) (product_name location : String)
    (current_stock : Int) (last_sold_date expiry_date : String)
    (sales_last_month total_sales factory_distance_km : Int) : String :=
  let stockSt := stock_status current_stock
  let expirySt := expiry_status_at ref expiry_date
  let demandSt := demand_status sales_last_month
  let distSt := distance_status factory_distance_km
  let prioSt := priority_label stockSt expirySt
  pyStripS ("\n" ++ document_interior product_id product_name location current_stock
    last_sold_date expiry_date sales_last_month total_sales factory_distance_km
    stockSt expirySt demandSt distSt prioSt ++ "\n")

/-! ### The prompt builder `build_warehouse_prompt` (`main-fixed.py` lines 102–140) -/

/-- One retrieved document as seen by `build_warehouse_prompt`: an object
with a `text` attribute, a dict (the shape produced by
`doc_store.retrieve_query`), a bare string, or anything else (rendered
with `str`). -/
inductive Doc where
  | withText (t : String)
  | dict (entries : List (String × String))
  | plain (s : String)
  | other (rendered : String)
deriving DecidableEq, Repr

/-- Python `d.get(key, default)` on a dict modelled as an association
list. -/
def dictGet (es : List (String × String)) (k : String) (dflt : String) : String :=
  match es with
  | [] => dflt
  | (k2, v) :: rest => if k2 = k then v else dictGet rest k dflt

/-- The context-extraction loop: `.text` objects and bare strings are
appended as they are; for a dict the first nonempty of
`text`/`chunk`/`data` is appended, and a falsy (empty) extraction is
skipped; other objects are appended via `str`. -/
def extractParts : List Doc → List String
  | [] => []
  | d :: rest =>
    match d with
    | .withText t => t :: extractParts rest
    | .dict es =>
      let t := dictGet es "text" (dictGet es "chunk" (dictGet es "data" ""))
      if t = "" then extractParts rest else t :: extractParts rest
    | .plain s => s :: extractParts rest
    | .other r => r :: extractParts rest

/-- Python `sep.join(parts)`. -/
def pyJoin (sep : String) : List String → String
  | [] => ""
  | [p] => p
  | p :: rest => p ++ sep ++ pyJoin sep rest

/-- The grounding context: the parts joined by the `\n\n---\n\n`
delimiter, or the placeholder when no part was extracted. -/
def promptContext (docs : List Doc) : String :=
  let parts := extractParts docs
  if parts.isEmpty then "No inventory data found." else pyJoin "\n\n---\n\n" parts

/-- Embedding of `build_warehouse_prompt`: the instruction f-string with
the context and the query interpolated. -/
def build_warehouse_prompt (docs : List Doc) (query : String) : String :=
  "You are a warehouse management AI assistant. Use the following real-time inventory data to answer the query.\n\nCURRENT INVENTORY DATA:\n"
  ++ (promptContext docs
  ++ ("\n\nUSER QUERY: " ++ (query
  ++ "\n\nProvide a helpful response that:\n1. Directly answers the question with specific details (product IDs, names, stock levels)\n2. Highlights urgent issues (low stock, expiring items)\n3. Provides actionable recommendations\n4. Uses exact numbers and dates from the data\n\nRESPONSE:")))

/-! ### Persistence (`save_inventory_data` in `app.py` lines 39–49 and
`atomic_csv_update` in `data_generator.py` lines 99–106)

File-system effects are modelled as the trace of operations each save
routine performs on paths. -/

/-- The dataset path constant of `app.py`. -/
def CSV_FILE_PATH : String := "./data/inventory.csv"

/-- One file-system operation: `os.makedirs`, a direct whole-file write
(`df.to_csv(path)` opens `path` itself and writes it), or `os.replace`. -/
inductive FsOp where
  | makedirs (dir : String)
  | write (path content : String)
  | replace (src dst : String)
deriving DecidableEq, Repr

/-- CSV text for a row (values joined by commas, as `to_csv` renders an
unquoted row). -/
def csvRow (r : Rec) : String :=
  String.intercalate "," ([r.ProductID, r.ProductName, r.Location, r.CurrentStock,
    r.LastSoldDate, r.ExpiryDate, r.SalesLastMonth, r.TotalSales,
    r.FactoryDistanceKM].map valStr)

/-- CSV text of the dataframe: header line then one line per row
(`df.to_csv(..., index=False)`). -/
def toCsv (df : List Rec) : String :=
  String.intercalate "\n" (String.intercalate "," COLUMNS :: df.map csvRow)

/-- Trace of `save_inventory_data` (`app.py`): ensure the directory
exists, then `df.to_csv(CSV_FILE_PATH, index=False)` — a direct in-place
write of the dataset file. -/
def save_inventory_data_ops (df : List Rec) : List FsOp :=
  [.makedirs "./data", .write CSV_FILE_PATH (toCsv df)]

/-- Trace of `atomic_csv_update` (`data_generator.py`): write
`csv_path + '.tmp'`, then `os.replace` it over `csv_path`. -/
def atomic_csv_update_ops (df : List Rec) (csv_path : String) : List FsOp :=
  [.write (csv_path ++ ".tmp") (toCsv df),
   .replace (csv_path ++ ".tmp") csv_path]

/-- Whether a trace ever writes the target path directly (the write a
concurrent reader could observe half-finished). -/
def writesDirectly (ops : List FsOp) (target : String) : Bool :=
  ops.any (fun op => match op with | .write p _ => p == target | _ => false)

/-- Whether the trace's last operation atomically renames some other path
onto the target. -/
def endsWithReplaceInto (ops : List FsOp) (target : String) : Bool :=
  match ops.getLast? with
  | some (.replace src dst) => dst == target && src != target
  | _ => false

/-- The write-temp-then-rename discipline: the target file is never
written directly and the final step is an atomic rename onto it. -/
def isWriteTempThenRename (ops : List FsOp) (target : String) : Bool :=
  !writesDirectly ops target && endsWithReplaceInto ops target

/-! ### Helper lemmas -/

/-- Substring occurrence on character lists: `pat` occurs contiguously
inside `s`. -/
def occursIn (pat s : List Char) : Prop := ∃ u v, s = u ++ (pat ++ v)

theorem toNat_ofNat_valid (n : Nat) (h : n.isValidChar) : (Char.ofNat n).toNat = n := by
  rw [Char.ofNat, dif_pos h]; rfl

theorem pyLowerChar_idem (c : Char) : pyLowerChar (pyLowerChar c) = pyLowerChar c := by
  by_cases h : 65 ≤ c.toNat ∧ c.toNat ≤ 90
  · have hv : (c.toNat + 32).isValidChar := Or.inl (by omega)
    have ht : (Char.ofNat (c.toNat + 32)).toNat = c.toNat + 32 := toNat_ofNat_valid _ hv
    have hno : ¬ (65 ≤ (Char.ofNat (c.toNat + 32)).toNat ∧ (Char.ofNat (c.toNat + 32)).toNat ≤ 90) := by
      rw [ht]; omega
    simp only [pyLowerChar, if_pos h, if_neg hno]
  · simp only [pyLowerChar, if_neg h]

theorem pyLowerL_idem (l : List Char) : pyLowerL (pyLowerL l) = pyLowerL l := by
  induction l with
  | nil => rfl
  | cons c t ih =>
    simp only [pyLowerL, List.map_cons] at ih ⊢
    rw [pyLowerChar_idem]
    exact congrArg _ ih

theorem pyLowerChar_fixed_of_mem {c : Char} {l : List Char} (h : c ∈ pyLowerL l) :
    pyLowerChar c = c := by
  simp only [pyLowerL, List.mem_map] at h
  obtain ⟨a, _, rfl⟩ := h
  exact pyLowerChar_idem a

theorem mem_of_mem_pyStripL {c : Char} {l : List Char} (h : c ∈ pyStripL l) : c ∈ l := by
  unfold pyStripL at h
  rw [List.mem_reverse] at h
  have h2 : c ∈ (l.dropWhile isPySpace).reverse := (List.dropWhile_sublist _).mem h
  rw [List.mem_reverse] at h2
  exact (List.dropWhile_sublist _).mem h2

theorem map_id_of_fixed {f : Char → Char} :
    ∀ {g : List Char}, (∀ c ∈ g, f c = c) → g.map f = g := by
  intro g
  induction g with
  | nil => intro _; rfl
  | cons c t ih =>
    intro h
    rw [List.map_cons, h c (List.mem_cons_self c t), ih (fun d hd => h d (List.mem_cons_of_mem c hd))]

theorem pyLowerS_fixed {g : List Char} (h : ∀ c ∈ g, pyLowerChar c = c) :
    pyLowerS (String.mk g) = String.mk g := by
  show String.mk (pyLowerL g) = String.mk g
  rw [show pyLowerL g = g from map_id_of_fixed h]

theorem occursIn_drop {g s : List Char} (j : Nat) (h : occursIn g (s.drop j)) :
    occursIn g s := by
  obtain ⟨u, v, huv⟩ := h
  exact ⟨s.take j ++ u, v, by rw [List.append_assoc, ← huv, List.take_append_drop]⟩

theorem findSome_eq_some {α β : Type} {f : α → Option β} :
    ∀ {l : List α} {b : β}, l.findSome? f = some b → ∃ a, f a = some b := by
  intro l
  induction l with
  | nil => intro b h; simp [List.findSome?] at h
  | cons a t ih =>
    intro b h
    rw [List.findSome?_cons] at h
    split at h
    · rename_i c hc
      exact ⟨a, by rw [hc]; exact h⟩
    · exact ih h

theorem matchSeq_groups (fuel : Nat) :
    ∀ (p : List Rx) (s : List Char) (gs : List (List Char)),
      matchSeq fuel p s = some gs → ∀ g ∈ gs, occursIn g s := by
  induction fuel with
  | zero => intro p s gs h; simp [matchSeq] at h
  | succ n ih =>
    intro p s gs h g hg
    cases p with
    | nil =>
      rw [matchSeq] at h
      cases h
      simp at hg
    | cons e rest =>
      cases e with
      | lit w =>
        rw [matchSeq] at h
        split at h
        · exact occursIn_drop _ (ih rest _ gs h g hg)
        · cases h
      | starG c =>
        rw [matchSeq] at h
        obtain ⟨j, hj⟩ := findSome_eq_some h
        exact occursIn_drop j (ih rest _ gs hj g hg)
      | starL c =>
        rw [matchSeq] at h
        obtain ⟨j, hj⟩ := findSome_eq_some h
        exact occursIn_drop j (ih rest _ gs hj g hg)
      | grp c =>
        rw [matchSeq] at h
        obtain ⟨j0, hj⟩ := findSome_eq_some h
        cases hm : matchSeq n rest (s.drop (j0 + 1)) with
        | none => rw [hm] at hj; cases hj
        | some gs2 =>
          rw [hm, Option.map_some'] at hj
          injection hj with hj2
          subst hj2
          rcases List.mem_cons.mp hg with hg | hg
          · subst hg
            exact ⟨[], s.drop (j0 + 1), by rw [List.nil_append, List.take_append_drop]⟩
          · exact occursIn_drop (j0 + 1) (ih rest _ gs2 hm g hg)
      | opt es =>
        rw [matchSeq] at h
        cases hm : matchSeq n (es ++ rest) s with
        | some gs2 =>
          rw [hm] at h
          cases h
          exact ih (es ++ rest) s gs hm g hg
        | none =>
          rw [hm] at h
          exact ih rest s gs h g hg
      | alt a b =>
        rw [matchSeq] at h
        cases hm : matchSeq n (a ++ rest) s with
        | some gs2 =>
          rw [hm] at h
          cases h
          exact ih (a ++ rest) s gs hm g hg
        | none =>
          rw [hm] at h
          exact ih (b ++ rest) s gs h g hg

theorem searchRx_groups {p : List Rx} {s : List Char} {gs : List (List Char)}
    (h : searchRx p s = some gs) : ∀ g ∈ gs, occursIn g s := by
  unfold searchRx at h
  obtain ⟨i, hi⟩ := findSome_eq_some h
  intro g hg
  exact occursIn_drop i (matchSeq_groups 100 p _ gs hi g hg)

theorem mem_of_occursIn {g s : List Char} (h : occursIn g s) {c : Char} (hc : c ∈ g) :
    c ∈ s := by
  obtain ⟨u, v, rfl⟩ := h
  simp [hc]

theorem segInt_no_str {f : String} {r : Option (List (List Char))} {k : String} {v : String}
    (h : (k, Val.strVal v) ∈ segInt f r) : False := by
  unfold segInt at h
  split at h <;> simp_all

theorem segStr_mem {f : String} {r : Option (List (List Char))} {k : String} {v : String}
    (h : (k, Val.strVal v) ∈ segStr f r) :
    ∃ g gs, r = some (g :: gs) ∧ v = String.mk g := by
  unfold segStr at h
  split at h
  · rename_i g gs
    simp only [List.mem_singleton, Prod.mk.injEq, Val.strVal.injEq] at h
    exact ⟨g, gs, rfl, h.2⟩
  · simp at h

theorem segName_mem {r : Option (List (List Char))} {k : String} {v : String}
    (h : (k, Val.strVal v) ∈ segName r) :
    ∃ g1 g2 gs, r = some (g1 :: g2 :: gs) ∧ (v = String.mk g1 ∨ v = String.mk g2) := by
  unfold segName at h
  split at h
  · rename_i g1 g2 gs
    simp only [List.mem_cons, List.mem_singleton, Prod.mk.injEq, Val.strVal.injEq,
      List.not_mem_nil, or_false] at h
    rcases h with ⟨_, hv⟩ | ⟨_, hv⟩
    · exact ⟨g1, g2, gs, rfl, Or.inl hv⟩
    · exact ⟨g1, g2, gs, rfl, Or.inr hv⟩
  · simp at h

theorem lower_of_group {q : String} {p : List Rx} {g : List Char} {gs : List (List Char)}
    (hs : searchRx p (pyStripL (pyLowerL q.data)) = some gs) (hg : g ∈ gs) :
    pyLowerS (String.mk g) = String.mk g := by
  refine pyLowerS_fixed (fun c hc => ?_)
  have h1 : c ∈ pyStripL (pyLowerL q.data) :=
    mem_of_occursIn (searchRx_groups hs g hg) hc
  exact pyLowerChar_fixed_of_mem (mem_of_mem_pyStripL h1)

theorem parse_strVal_lower {q k : String} {v : String}
    (h : (k, Val.strVal v) ∈ parse_update_query q) : pyLowerS v = v := by
  unfold parse_update_query at h
  simp only [List.mem_append] at h
  rcases h with ((((((h | h) | h) | h) | h) | h) | h) | h
  · exact absurd h segInt_no_str
  · obtain ⟨g1, g2, gs, hr, hv⟩ := segName_mem h
    rcases hv with rfl | rfl
    · exact lower_of_group hr (List.mem_cons_self _ _)
    · exact lower_of_group hr (List.mem_cons_of_mem _ (List.mem_cons_self _ _))
  · exact absurd h segInt_no_str
  · obtain ⟨g, gs, hr, rfl⟩ := segStr_mem h
    exact lower_of_group hr (List.mem_cons_self _ _)
  · obtain ⟨g, gs, hr, rfl⟩ := segStr_mem h
    exact lower_of_group hr (List.mem_cons_self _ _)
  · exact absurd h segInt_no_str
  · obtain ⟨g, gs, hr, rfl⟩ := segStr_mem h
    exact lower_of_group hr (List.mem_cons_self _ _)
  · exact absurd h segInt_no_str

/-- Row-level view of the update loop: fold the applicable writes over a
single record (used to characterise `applyStage`). -/
def applyRec (r : Rec) (upds : List (String × Val)) : Rec :=
  upds.foldl (fun r2 kv => if kv.1 ∈ COLUMNS then setCol r2 kv.1 kv.2 else r2) r

theorem zipWith_zipWith_same {α β γ δ : Type} (f : γ → β → δ) (g : α → β → γ) :
    ∀ (l1 : List α) (l2 : List β),
      List.zipWith f (List.zipWith g l1 l2) l2 = List.zipWith (fun a b => f (g a b) b) l1 l2 := by
  intro l1
  induction l1 with
  | nil => intro l2; rfl
  | cons a t ih =>
    intro l2
    cases l2 with
    | nil => rfl
    | cons b t2 => simp [List.zipWith, ih]

theorem zipWith_left_id {α β : Type} :
    ∀ (l1 : List α) (l2 : List β), l1.length = l2.length →
      List.zipWith (fun a _ => a) l1 l2 = l1 := by
  intro l1
  induction l1 with
  | nil => intro l2 _; rfl
  | cons a t ih =>
    intro l2 hlen
    cases l2 with
    | nil => simp at hlen
    | cons b t2 =>
      simp only [List.zipWith]
      rw [ih t2 (by simpa using hlen)]

theorem applyStage_fst (upds : List (String × Val)) :
    ∀ (df : List Rec) (mask : List Bool), df.length = mask.length →
      (applyStage df mask upds).1 =
        List.zipWith (fun r m => if m then applyRec r upds else r) df mask := by
  induction upds with
  | nil =>
    intro df mask hlen
    show df = _
    have : (fun (r : Rec) (m : Bool) => if m then applyRec r [] else r) = fun r _ => r := by
      funext r m
      cases m <;> rfl
    rw [this, zipWith_left_id df mask hlen]
  | cons kv rest ih =>
    intro df mask hlen
    obtain ⟨k, v⟩ := kv
    by_cases hk : k ∈ COLUMNS
    · have hdf2 : (List.zipWith (fun r m => if m then setCol r k v else r) df mask).length = mask.length := by
        rw [List.length_zipWith, hlen, Nat.min_self]
      rw [applyStage, if_pos hk]
      simp only
      rw [ih _ mask hdf2, zipWith_zipWith_same]
      have : (fun (r : Rec) (m : Bool) =>
          if m then applyRec (if m then setCol r k v else r) rest else if m then setCol r k v else r)
          = fun r m => if m then applyRec r ((k, v) :: rest) else r := by
        funext r m
        cases m
        · rfl
        · show applyRec (setCol r k v) rest = applyRec r ((k, v) :: rest)
          rw [applyRec, applyRec, List.foldl_cons]
          simp only [if_pos hk]
      rw [this]
    · rw [applyStage, if_neg hk, ih df mask hlen]
      have : (fun (r : Rec) (m : Bool) => if m then applyRec r rest else r)
          = fun r m => if m then applyRec r ((k, v) :: rest) else r := by
        funext r m
        cases m
        · rfl
        · show applyRec r rest = applyRec r ((k, v) :: rest)
          rw [applyRec, applyRec, List.foldl_cons]
          simp only [if_neg hk]
      rw [← this]
  
theorem applyStage_snd (upds : List (String × Val)) :
    ∀ (df : List Rec) (mask : List Bool),
      (applyStage df mask upds).2 =
        (upds.filter (fun kv => decide (kv.1 ∈ COLUMNS))).map
          (fun kv => kv.1 ++ ": " ++ valStr kv.2) := by
  induction upds with
  | nil => intro df mask; rfl
  | cons kv rest ih =>
    intro df mask
    obtain ⟨k, v⟩ := kv
    by_cases hk : k ∈ COLUMNS
    · rw [applyStage, if_pos hk]
      simp only [List.filter_cons, decide_eq_true hk, if_true, List.map_cons, if_pos trivial]
      rw [ih]
    · rw [applyStage, if_neg hk]
      simp only [List.filter_cons]
      rw [decide_eq_false hk]
      simp only [Bool.false_eq_true, if_false]
      exact ih df mask

theorem isEmpty_map {α β : Type} (f : α → β) (l : List α) :
    (l.map f).isEmpty = l.isEmpty := by
  cases l <;> rfl

theorem resolveMask_length {df : List Rec} {upds : List (String × Val)} {mask : List Bool}
    (h : resolveMask df upds = some mask) : df.length = mask.length := by
  unfold resolveMask at h
  split at h
  · injection h with h2
    rw [← h2, List.length_map]
  · split at h
    · injection h with h2
      rw [← h2, List.length_map]
    · cases h

theorem apply_char {df : List Rec} {upds : List (String × Val)} {mask : List Bool}
    (hm : resolveMask df upds = some mask)
    (hne : df.isEmpty = false) (hany : mask.any id = true) :
    apply_data_updates df upds =
      (List.zipWith (fun r m => if m then applyRec r upds else r) df mask,
       if (upds.filter (fun kv => decide (kv.1 ∈ COLUMNS))).isEmpty
       then Msg.noValidUpdates
       else Msg.success ((upds.filter (fun kv => decide (kv.1 ∈ COLUMNS))).map
         (fun kv => kv.1 ++ ": " ++ valStr kv.2))) := by
  have hlen := resolveMask_length hm
  simp only [apply_data_updates, hne, hm, hany, Bool.false_eq_true, if_false, if_true]
  rw [applyStage_fst upds df mask hlen, applyStage_snd, isEmpty_map]
  split <;> rfl

theorem data_append (a b : String) : (a ++ b).data = a.data ++ b.data := rfl

theorem priority_data (a b : String) :
    ∃ base, (priority_label a b).data = base ++ ['Y'] := by
  unfold priority_label
  split
  · exact ⟨"HIGH PRIORIT".data, rfl⟩
  · exact ⟨"NORMAL PRIORIT".data, rfl⟩

theorem isPySpace_nl : isPySpace '\n' = true := rfl

theorem isPySpace_P : isPySpace 'P' = false := rfl

theorem isPySpace_Y : isPySpace 'Y' = false := rfl

theorem dropWhile_nlP (t : List Char) :
    List.dropWhile isPySpace ('\n' :: 'P' :: t) = 'P' :: t := rfl

theorem dropWhile_nlY (t : List Char) :
    List.dropWhile isPySpace ('\n' :: 'Y' :: t) = 'Y' :: t := rfl

theorem pyStripL_sandwich (mid : List Char) :
    pyStripL ('\n' :: 'P' :: (mid ++ ['Y', '\n'])) = 'P' :: (mid ++ ['Y']) := by
  unfold pyStripL
  rw [dropWhile_nlP]
  have h1 : ('P' :: (mid ++ ['Y', '\n'])).reverse = '\n' :: 'Y' :: (mid.reverse ++ ['P']) := by
    simp
  rw [h1, dropWhile_nlY]
  have h2 : ('Y' :: (mid.reverse ++ ['P'])).reverse = 'P' :: (mid ++ ['Y']) := by
    simp
  rw [h2]

theorem strip_wrap (s : String) (mid : List Char)
    (hs : s.data = 'P' :: (mid ++ ['Y'])) :
    pyStripS ("\n" ++ (s ++ "\n")) = s := by
  have hdata : ("\n" ++ (s ++ "\n")).data = '\n' :: 'P' :: (mid ++ ['Y', '\n']) := by
    rw [data_append, data_append, hs]
    simp
  show String.mk (pyStripL ("\n" ++ (s ++ "\n")).data) = s
  rw [hdata, pyStripL_sandwich mid, ← hs]

theorem tailY (x y : String) (h : ∃ b, y.data = b ++ ['Y']) :
    ∃ b, (x ++ y).data = b ++ ['Y'] := by
  obtain ⟨b, hb⟩ := h
  exact ⟨x.data ++ b, by rw [data_append, hb, List.append_assoc]⟩

theorem assemble (x y : String) (tA : List Char) (hx : x.data = 'P' :: tA)
    (hy : ∃ b, y.data = b ++ ['Y']) :
    ∃ mid, (x ++ y).data = 'P' :: (mid ++ ['Y']) := by
  obtain ⟨b, hb⟩ := hy
  refine ⟨tA ++ b, ?_⟩
  rw [data_append, hx, hb, List.cons_append, List.append_assoc]

theorem document_interior_shape (pid : Int) (pname loc : String) (cs : Int)
    (lsd ed : String) (slm ts fd : Int) (s1 s2 s3 s4 s5 : String)
    (b : List Char) (hb : s5.data = b ++ ['Y']) :
    ∃ mid, (document_interior pid pname loc cs lsd ed slm ts fd s1 s2 s3 s4 s5).data
      = 'P' :: (mid ++ ['Y']) := by
  unfold document_interior
  apply assemble _ _ ("roduct Information:\nProduct ID: " : String).data rfl
  repeat apply tailY
  exact ⟨b, hb⟩

theorem create_document_text_eq (pid : Int) (pname loc : String) (cs : Int)
    (lsd ed : String) (slm ts fd : Int) :
    create_document_text pid pname loc cs lsd ed slm ts fd =
      document_interior pid pname loc cs lsd ed slm ts fd
        (stock_status cs) (expiry_status ed) (demand_status slm) (distance_status fd)
        (priority_label (stock_status cs) (expiry_status ed)) := by
  obtain ⟨base, hbase⟩ := priority_data (stock_status cs) (expiry_status ed)
  obtain ⟨mid, hmid⟩ := document_interior_shape pid pname loc cs lsd ed slm ts fd
    (stock_status cs) (expiry_status ed) (demand_status slm) (distance_status fd)
    (priority_label (stock_status cs) (expiry_status ed)) base hbase
  show pyStripS _ = _
  rw [show ("\n" ++ document_interior pid pname loc cs lsd ed slm ts fd
      (stock_status cs) (expiry_status ed) (demand_status slm) (distance_status fd)
      (priority_label (stock_status cs) (expiry_status ed)) ++ "\n")
    = ("\n" ++ (document_interior pid pname loc cs lsd ed slm ts fd
      (stock_status cs) (expiry_status ed) (demand_status slm) (distance_status fd)
      (priority_label (stock_status cs) (expiry_status ed)) ++ "\n")) from rfl]
  exact strip_wrap _ mid hmid

theorem setCol_ProductID_ne (r : Rec) (k : String) (v : Val) (h : k ≠ "ProductID") :
    (setCol r k v).ProductID = r.ProductID := by
  unfold setCol
  split_ifs <;> simp_all

theorem setCol_ProductName_ne (r : Rec) (k : String) (v : Val) (h : k ≠ "ProductName") :
    (setCol r k v).ProductName = r.ProductName := by
  unfold setCol
  split_ifs <;> simp_all

theorem setCol_Location_ne (r : Rec) (k : String) (v : Val) (h : k ≠ "Location") :
    (setCol r k v).Location = r.Location := by
  unfold setCol
  split_ifs <;> simp_all

theorem setCol_CurrentStock_ne (r : Rec) (k : String) (v : Val) (h : k ≠ "CurrentStock") :
    (setCol r k v).CurrentStock = r.CurrentStock := by
  unfold setCol
  split_ifs <;> simp_all

theorem setCol_LastSoldDate_ne (r : Rec) (k : String) (v : Val) (h : k ≠ "LastSoldDate") :
    (setCol r k v).LastSoldDate = r.LastSoldDate := by
  unfold setCol
  split_ifs <;> simp_all

theorem setCol_ExpiryDate_ne (r : Rec) (k : String) (v : Val) (h : k ≠ "ExpiryDate") :
    (setCol r k v).ExpiryDate = r.ExpiryDate := by
  unfold setCol
  split_ifs <;> simp_all

theorem setCol_SalesLastMonth_ne (r : Rec) (k : String) (v : Val) (h : k ≠ "SalesLastMonth") :
    (setCol r k v).SalesLastMonth = r.SalesLastMonth := by
  unfold setCol
  split_ifs <;> simp_all

theorem setCol_TotalSales_ne (r : Rec) (k : String) (v : Val) (h : k ≠ "TotalSales") :
    (setCol r k v).TotalSales = r.TotalSales := by
  unfold setCol
  split_ifs <;> simp_all

theorem setCol_FactoryDistanceKM_ne (r : Rec) (k : String) (v : Val) (h : k ≠ "FactoryDistanceKM") :
    (setCol r k v).FactoryDistanceKM = r.FactoryDistanceKM := by
  unfold setCol
  split_ifs <;> simp_all

theorem getCol_setCol_ne (r : Rec) (k c : String) (v : Val) (h : k ≠ c) :
    getCol (setCol r k v) c = getCol r c := by
  unfold getCol
  by_cases h1 : c = "ProductID"
  · simp only [if_pos h1]
    rw [h1] at h
    rw [setCol_ProductID_ne r k v h]
  simp only [if_neg h1]
  by_cases h2 : c = "ProductName"
  · simp only [if_pos h2]
    rw [h2] at h
    rw [setCol_ProductName_ne r k v h]
  simp only [if_neg h2]
  by_cases h3 : c = "Location"
  · simp only [if_pos h3]
    rw [h3] at h
    rw [setCol_Location_ne r k v h]
  simp only [if_neg h3]
  by_cases h4 : c = "CurrentStock"
  · simp only [if_pos h4]
    rw [h4] at h
    rw [setCol_CurrentStock_ne r k v h]
  simp only [if_neg h4]
  by_cases h5 : c = "LastSoldDate"
  · simp only [if_pos h5]
    rw [h5] at h
    rw [setCol_LastSoldDate_ne r k v h]
  simp only [if_neg h5]
  by_cases h6 : c = "ExpiryDate"
  · simp only [if_pos h6]
    rw [h6] at h
    rw [setCol_ExpiryDate_ne r k v h]
  simp only [if_neg h6]
  by_cases h7 : c = "SalesLastMonth"
  · simp only [if_pos h7]
    rw [h7] at h
    rw [setCol_SalesLastMonth_ne r k v h]
  simp only [if_neg h7]
  by_cases h8 : c = "TotalSales"
  · simp only [if_pos h8]
    rw [h8] at h
    rw [setCol_TotalSales_ne r k v h]
  simp only [if_neg h8]
  by_cases h9 : c = "FactoryDistanceKM"
  · simp only [if_pos h9]
    rw [h9] at h
    rw [setCol_FactoryDistanceKM_ne r k v h]
  simp only [if_neg h9]

theorem applyRec_cons (r : Rec) (k : String) (v : Val) (rest : List (String × Val)) :
    applyRec r ((k, v) :: rest)
      = applyRec (if k ∈ COLUMNS then setCol r k v else r) rest := by
  rw [applyRec, applyRec, List.foldl_cons]

theorem getCol_applyRec_ne (c : String) :
    ∀ (upds : List (String × Val)) (r : Rec), (∀ v, (c, v) ∉ upds) →
      getCol (applyRec r upds) c = getCol r c := by
  intro upds
  induction upds with
  | nil => intro r _; rfl
  | cons kv rest ih =>
    intro r hc
    obtain ⟨k, v⟩ := kv
    have hkc : k ≠ c := by
      intro heq
      exact hc v (by rw [← heq]; exact List.mem_cons_self _ _)
    have hrest : ∀ v2, (c, v2) ∉ rest := fun v2 hmem => hc v2 (List.mem_cons_of_mem _ hmem)
    rw [applyRec_cons]
    by_cases hk : k ∈ COLUMNS
    · rw [if_pos hk, ih _ hrest, getCol_setCol_ne r k c v hkc]
    · rw [if_neg hk, ih _ hrest]

theorem applyRec_no_cols :
    ∀ (upds : List (String × Val)) (r : Rec), (∀ kv ∈ upds, kv.1 ∉ COLUMNS) →
      applyRec r upds = r := by
  intro upds
  induction upds with
  | nil => intro r _; rfl
  | cons kv rest ih =>
    intro r h
    rw [applyRec_cons, if_neg (h kv (List.mem_cons_self _ _))]
    exact ih r (fun kv2 hm => h kv2 (List.mem_cons_of_mem _ hm))

/-- Keys that matter to `apply_data_updates`: known columns plus the
`old_name` selector; every other key of the parsed dict is ignored. -/
def keepKV (kv : String × Val) : Bool := decide (kv.1 ∈ COLUMNS) || (kv.1 == "old_name")

theorem lookupVal_filter (p : String × Val → Bool) (k : String)
    (hk : ∀ v, p (k, v) = true) :
    ∀ upds, lookupVal (upds.filter p) k = lookupVal upds k := by
  intro upds
  induction upds with
  | nil => rfl
  | cons kv rest ih =>
    obtain ⟨k2, v2⟩ := kv
    by_cases hkk : k2 = k
    · subst hkk
      rw [List.filter_cons, hk v2]
      simp only [if_pos trivial]
      rw [lookupVal, lookupVal, if_pos rfl, if_pos rfl]
    · rw [List.filter_cons]
      cases hp : p (k2, v2)
      · simp only [Bool.false_eq_true, if_false]
        rw [ih, lookupVal, if_neg hkk]
      · simp only [if_pos trivial]
        rw [lookupVal, lookupVal, if_neg hkk, if_neg hkk, ih]

theorem applyStage_filter (p : String × Val → Bool)
    (hp : ∀ kv : String × Val, kv.1 ∈ COLUMNS → p kv = true) :
    ∀ (upds : List (String × Val)) (df : List Rec) (mask : List Bool),
      applyStage df mask (upds.filter p) = applyStage df mask upds := by
  intro upds
  induction upds with
  | nil => intro df mask; rfl
  | cons kv rest ih =>
    intro df mask
    obtain ⟨k, v⟩ := kv
    by_cases hk : k ∈ COLUMNS
    · rw [List.filter_cons, hp (k, v) hk]
      simp only [if_pos trivial]
      rw [applyStage, applyStage, if_pos hk, if_pos hk]
      simp only [ih]
    · rw [List.filter_cons]
      cases hpv : p (k, v)
      · simp only [Bool.false_eq_true, if_false]
        rw [ih, applyStage, if_neg hk]
      · simp only [if_pos trivial]
        rw [applyStage, applyStage, if_neg hk, if_neg hk]
        simp only [ih]

theorem resolveMask_filter (df : List Rec) (upds : List (String × Val)) :
    resolveMask df (upds.filter keepKV) = resolveMask df upds := by
  unfold resolveMask
  rw [lookupVal_filter keepKV "ProductID" (fun v => by simp [keepKV, COLUMNS]),
      lookupVal_filter keepKV "old_name" (fun v => by simp [keepKV])]

theorem apply_filter_invariant (df : List Rec) (upds : List (String × Val)) :
    apply_data_updates df (upds.filter keepKV) = apply_data_updates df upds := by
  have hp : ∀ kv : String × Val, kv.1 ∈ COLUMNS → keepKV kv = true := by
    intro kv hk
    simp [keepKV, hk]
  simp only [apply_data_updates, resolveMask_filter, applyStage_filter keepKV hp]

theorem data_ne_of_ne_empty {s : String} (h : s ≠ "") : s.data ≠ [] := by
  intro hd
  apply h
  calc s = String.mk s.data := rfl
    _ = String.mk [] := by rw [hd]
    _ = "" := rfl

theorem str_ne_empty_of_data {s : String} (h : s.data ≠ []) : s ≠ "" := by
  intro he
  exact h (by rw [he])

theorem append_left_ne_empty {p x : String} (hp : p ≠ "") : p ++ x ≠ "" := by
  apply str_ne_empty_of_data
  rw [data_append]
  intro hnil
  exact data_ne_of_ne_empty hp (List.append_eq_nil.mp hnil).1

theorem pyJoin_ne_empty (sep : String) :
    ∀ (parts : List String), parts ≠ [] → (∀ s ∈ parts, s ≠ "") →
      pyJoin sep parts ≠ "" := by
  intro parts
  induction parts with
  | nil => intro h _; exact absurd rfl h
  | cons p rest ih =>
    intro _ hall
    cases rest with
    | nil => exact hall p (List.mem_cons_self _ _)
    | cons q t =>
      show p ++ sep ++ pyJoin sep (q :: t) ≠ ""
      exact append_left_ne_empty (append_left_ne_empty (hall p (List.mem_cons_self _ _)))

theorem append_tmp_ne (path : String) : path ++ ".tmp" ≠ path := by
  intro h
  have hlen : (path ++ ".tmp").data.length = path.data.length := by rw [h]
  rw [data_append, List.length_append] at hlen
  have h4 : (".tmp" : String).data.length = 4 := rfl
  omega

theorem getD_map_lt {α β : Type} (f : α → β) (d : β) (d2 : α) :
    ∀ (l : List α) (i : Nat), i < l.length → (l.map f).getD i d = f (l.getD i d2) := by
  intro l
  induction l with
  | nil => intro i hi; simp at hi
  | cons a t ih =>
    intro i hi
    cases i with
    | zero => rfl
    | succ j =>
      simp only [List.map_cons, List.getD_cons_succ]
      exact ih j (by simpa using hi)

theorem occursIn_self (pat : List Char) : occursIn pat pat :=
  ⟨[], [], by rw [List.nil_append, List.append_nil]⟩

theorem occursIn_skip (x y : String) (pat : List Char) (h : occursIn pat y.data) :
    occursIn pat (x ++ y).data := by
  rw [data_append]
  obtain ⟨u, v, huv⟩ := h
  exact ⟨x.data ++ u, v, by rw [huv, List.append_assoc]⟩

theorem occursIn_at (s y : String) : occursIn s.data (s ++ y).data := by
  rw [data_append]
  exact ⟨[], y.data, rfl⟩

theorem extractParts_dict_ne :
    ∀ (docs : List Doc), (∀ d ∈ docs, ∃ es, d = Doc.dict es) →
      ∀ s ∈ extractParts docs, s ≠ "" := by
  intro docs
  induction docs with
  | nil =>
    intro _ s hs
    simp [extractParts] at hs
  | cons d rest ih =>
    intro hd s hs
    have hrest : ∀ d2 ∈ rest, ∃ es, d2 = Doc.dict es :=
      fun d2 hm => hd d2 (List.mem_cons_of_mem _ hm)
    obtain ⟨es, rfl⟩ := hd _ (List.mem_cons_self _ _)
    rw [extractParts] at hs
    by_cases hte : dictGet es "text" (dictGet es "chunk" (dictGet es "data" "")) = ""
    · rw [if_pos hte] at hs
      exact ih hrest s hs
    · rw [if_neg hte] at hs
      rcases List.mem_cons.mp hs with rfl | hs2
      · exact hte
      · exact ih hrest s hs2

/-- The sample inventory row for product 11023 from the sample data of
`app.py` (lines 440–450). -/
def sampleRec : Rec :=
  { ProductID := Val.intVal 11023, ProductName := Val.strVal "Organic Tomatoes",
    Location := Val.strVal "SectionC", CurrentStock := Val.intVal 15,
    LastSoldDate := Val.strVal "2025-09-18", ExpiryDate := Val.strVal "2025-09-23",
    SalesLastMonth := Val.intVal 80, TotalSales := Val.intVal 420,
    FactoryDistanceKM := Val.intVal 15 }

/-- A second sample row (product 11024, Green Lettuce, from the same
sample data). -/
def sampleRec2 : Rec :=
  { ProductID := Val.intVal 11024, ProductName := Val.strVal "Green Lettuce",
    Location := Val.strVal "SectionA", CurrentStock := Val.intVal 25,
    LastSoldDate := Val.strVal "2025-09-22", ExpiryDate := Val.strVal "2025-09-30",
    SalesLastMonth := Val.intVal 95, TotalSales := Val.intVal 380,
    FactoryDistanceKM := Val.intVal 8 }

/-- Two records that share the product name case-insensitively
(`Anand` / `anand`), to exercise the name selector on duplicate names. -/
def twoAnands : List Rec :=
  [{ sampleRec with ProductID := Val.intVal 11030, ProductName := Val.strVal "Anand" },
   { sampleRec2 with ProductID := Val.intVal 11031, ProductName := Val.strVal "anand" }]

/-- The parsed form of the example command `"Update product 11023 stock to 50"`. -/
def stockCmdUpdates : List (String × Val) :=
  parse_update_query "Update product 11023 stock to 50"

theorem stockCmdUpdates_eq :
    stockCmdUpdates = [("ProductID", Val.intVal 11023), ("CurrentStock", Val.intVal 50)] := by
  rfl

/-- The parsed form of the example rename command
`"Update product name Anand as Dubey"`. -/
def renameCmdUpdates : List (String × Val) :=
  parse_update_query "Update product name Anand as Dubey"

theorem renameCmdUpdates_eq :
    renameCmdUpdates = [("old_name", Val.strVal "anand"), ("ProductName", Val.strVal "dubey")] := by
  rfl

theorem apply_masked_map (df : List Rec) (upds : List (String × Val)) (fb : Rec → Bool)
    (hm : resolveMask df upds = some (df.map fb))
    (hne : df ≠ []) (hex : ∃ r ∈ df, fb r = true) :
    apply_data_updates df upds
      = (df.map (fun r => if fb r then applyRec r upds else r),
         if (upds.filter (fun kv => decide (kv.1 ∈ COLUMNS))).isEmpty
         then Msg.noValidUpdates
         else Msg.success ((upds.filter (fun kv => decide (kv.1 ∈ COLUMNS))).map
           (fun kv => kv.1 ++ ": " ++ valStr kv.2))) := by
  have hne2 : df.isEmpty = false := by
    rw [List.isEmpty_eq_false]
    exact hne
  have hany : (df.map fb).any id = true := by
    rw [List.any_eq_true]
    obtain ⟨r, hr, hfr⟩ := hex
    exact ⟨fb r, List.mem_map_of_mem fb hr, hfr⟩
  rw [apply_char hm hne2 hany]
  rw [List.zipWith_map_right df df fb, List.zipWith_same]

/-! ### The claims -/

/-- Claim C1, counterexample: the update path's save step
(`save_inventory_data`, reached from `apply_data_updates` via the Apply
Updates flow of `app.py`) does not follow the write-temp-then-rename
discipline on a concrete dataframe: its trace writes the dataset file
`./data/inventory.csv` directly with no temporary file and no rename. -/
theorem c1_counterexample :
    isWriteTempThenRename (save_inventory_data_ops [sampleRec]) CSV_FILE_PATH = false
    ∧ writesDirectly (save_inventory_data_ops [sampleRec]) CSV_FILE_PATH = true :=
  ⟨rfl, rfl⟩

/-- Claim C1, amended: only the data generator's `atomic_csv_update`
persists via write-temp-then-rename (for every dataframe and every path);
the app's update path persists via `save_inventory_data`, which performs a
direct in-place write of the dataset file and never a rename. -/
theorem c1_amended_atomicity (df : List Rec) (path : String) :
    isWriteTempThenRename (atomic_csv_update_ops df path) path = true
    ∧ isWriteTempThenRename (save_inventory_data_ops df) CSV_FILE_PATH = false
    ∧ writesDirectly (save_inventory_data_ops df) CSV_FILE_PATH = true := by
  have hne : ((path ++ ".tmp") == path) = false := by
    rw [beq_eq_false_iff_ne]
    exact append_tmp_ne path
  refine ⟨?_, rfl, rfl⟩
  simp [isWriteTempThenRename, writesDirectly, endsWithReplaceInto,
    atomic_csv_update_ops, hne]
  exact append_tmp_ne path

/-- Claim C2, counterexample: the document projector's stock
classification maps CurrentStock 10 to LOW STOCK, not to CRITICAL LOW
STOCK as the claim's boundary list states. -/
theorem c2_counterexample :
    stock_status 10 = "LOW STOCK" ∧ stock_status 10 ≠ "CRITICAL LOW STOCK" :=
  ⟨rfl, by decide⟩

/-- Claim C2, amended: the stock classification maps 0, 9, 10, 49, 50 to
OUT OF STOCK, CRITICAL LOW STOCK, LOW STOCK, LOW STOCK, ADEQUATE STOCK
respectively; in general 0 maps to OUT OF STOCK, other values below 10 to
CRITICAL LOW STOCK, values from 10 below 50 to LOW STOCK, and values from
50 up to ADEQUATE STOCK. -/
theorem c2_amended_stock_boundaries :
    stock_status 0 = "OUT OF STOCK"
    ∧ stock_status 9 = "CRITICAL LOW STOCK"
    ∧ stock_status 10 = "LOW STOCK"
    ∧ stock_status 49 = "LOW STOCK"
    ∧ stock_status 50 = "ADEQUATE STOCK"
    ∧ (∀ n : Int, n ≠ 0 → n < 10 → stock_status n = "CRITICAL LOW STOCK")
    ∧ (∀ n : Int, 10 ≤ n → n < 50 → stock_status n = "LOW STOCK")
    ∧ (∀ n : Int, 50 ≤ n → stock_status n = "ADEQUATE STOCK") := by
  refine ⟨rfl, rfl, rfl, rfl, rfl, ?_, ?_, ?_⟩
  · intro n h0 h10
    unfold stock_status
    rw [if_neg h0, if_pos h10]
  · intro n h10 h50
    unfold stock_status
    rw [if_neg (by omega), if_neg (by omega), if_pos h50]
  · intro n h50
    unfold stock_status
    rw [if_neg (by omega), if_neg (by omega), if_neg (by omega)]

/-- Witness for the amended C2 theorem at CurrentStock 5. -/
theorem c2_amended_stock_boundaries_witness :
    stock_status 5 = "CRITICAL LOW STOCK" :=
  c2_amended_stock_boundaries.2.2.2.2.2.1 5 (by decide) (by decide)

theorem getD_zipWith {α β γ : Type} (f : α → β → γ) (d0 : γ) (da : α) (db : β) :
    ∀ (l1 : List α) (l2 : List β) (i : Nat), i < l1.length → l1.length = l2.length →
      (List.zipWith f l1 l2).getD i d0 = f (l1.getD i da) (l2.getD i db) := by
  intro l1
  induction l1 with
  | nil => intro l2 i hi _; simp at hi
  | cons a t ih =>
    intro l2 i hi hlen
    cases l2 with
    | nil => simp at hlen
    | cons b t2 =>
      cases i with
      | zero => rfl
      | succ j =>
        simp only [List.zipWith_cons_cons, List.getD_cons_succ]
        exact ih t2 j (by simpa using hi) (by simpa using hlen)

/-- Claim C3: on a resolved target, only the parsed fields that are known
columns are written — (i) the command succeeds exactly when at least one
parsed key is a known column, (ii) otherwise it returns the
NoApplicableFields rejection (`"No valid updates found"`) with the data
unchanged, (iii) keys matching no known column (and not the `old_name`
selector) can be dropped without changing the outcome, and (iv) every
column not named in the parsed update keeps its value in every row. -/
theorem c3_only_known_fields (df : List Rec) (upds : List (String × Val)) (mask : List Bool)
    (hm : resolveMask df upds = some mask) (hne : df.isEmpty = false)
    (hany : mask.any id = true) :
    ((∃ fields, (apply_data_updates df upds).2 = Msg.success fields)
      ↔ ∃ kv ∈ upds, kv.1 ∈ COLUMNS)
    ∧ ((¬ ∃ kv ∈ upds, kv.1 ∈ COLUMNS) →
        apply_data_updates df upds = (df, Msg.noValidUpdates))
    ∧ apply_data_updates df (upds.filter keepKV) = apply_data_updates df upds
    ∧ (∀ (i : Nat) (c : String) (d0 : Rec), (∀ v, (c, v) ∉ upds) → i < df.length →
        getCol ((apply_data_updates df upds).1.getD i d0) c = getCol (df.getD i d0) c) := by
  have hc := apply_char hm hne hany
  have hlen := resolveMask_length hm
  have hfilter : (upds.filter (fun kv => decide (kv.1 ∈ COLUMNS))).isEmpty = true
      ↔ ¬ ∃ kv ∈ upds, kv.1 ∈ COLUMNS := by
    rw [List.isEmpty_iff, List.filter_eq_nil_iff]
    constructor
    · rintro h ⟨kv, hmem, hcol⟩
      exact h kv hmem (by simpa using hcol)
    · intro h kv hmem hcol
      exact h ⟨kv, hmem, by simpa using hcol⟩
  refine ⟨?_, ?_, apply_filter_invariant df upds, ?_⟩
  · rw [hc]
    constructor
    · rintro ⟨fields, hf⟩
      by_contra hno
      rw [if_pos (hfilter.mpr hno)] at hf
      cases hf
    · intro hyes
      have : (upds.filter (fun kv => decide (kv.1 ∈ COLUMNS))).isEmpty = false := by
        cases hE : (upds.filter (fun kv => decide (kv.1 ∈ COLUMNS))).isEmpty
        · rfl
        · exact absurd (hfilter.mp hE) (by simpa using hyes)
      rw [if_neg (by rw [this]; exact Bool.false_ne_true)]
      exact ⟨_, rfl⟩
  · intro hno
    rw [hc, if_pos (hfilter.mpr hno)]
    have hid : ∀ r : Rec, applyRec r upds = r := by
      intro r
      refine applyRec_no_cols upds r ?_
      intro kv hmem hcol
      exact hno ⟨kv, hmem, hcol⟩
    have : (fun (r : Rec) (m : Bool) => if m then applyRec r upds else r) = fun r _ => r := by
      funext r m
      cases m
      · rfl
      · exact hid r
    rw [this, zipWith_left_id df mask hlen]
  · intro i c d0 hc2 hi
    rw [hc]
    have hmasklen : i < mask.length := hlen ▸ hi
    rw [getD_zipWith _ d0 d0 false df mask i hi hlen]
    cases hmv : mask.getD i false
    · rfl
    · exact getCol_applyRec_ne c upds (df.getD i d0) hc2

/-- Witness for C3 at a one-row table and the parsed update of
`"Update product 11023 factory distance to 5"`, whose `FactoryDistance`
key matches no column while `ProductID` does: the command succeeds, and
the `CurrentStock` column (not named in the update) is unchanged. -/
theorem c3_only_known_fields_witness :
    (∃ fields, (apply_data_updates [sampleRec]
        [("ProductID", Val.intVal 11023), ("FactoryDistance", Val.intVal 5)]).2
      = Msg.success fields)
    ∧ getCol ((apply_data_updates [sampleRec]
        [("ProductID", Val.intVal 11023), ("FactoryDistance", Val.intVal 5)]).1.getD 0 sampleRec)
        "CurrentStock"
      = getCol ([sampleRec].getD 0 sampleRec) "CurrentStock" := by
  refine ⟨(c3_only_known_fields [sampleRec]
      [("ProductID", Val.intVal 11023), ("FactoryDistance", Val.intVal 5)]
      [true] (by decide) (by decide) (by decide)).1.mpr
      ⟨("ProductID", Val.intVal 11023), by decide, by decide⟩,
    (c3_only_known_fields [sampleRec]
      [("ProductID", Val.intVal 11023), ("FactoryDistance", Val.intVal 5)]
      [true] (by decide) (by decide) (by decide)).2.2.2 0 "CurrentStock" sampleRec
      (by intro v hv; simp at hv) (by decide)⟩

/-- Claim C4: the command `"Update product 11023 stock to 50"` parses to
exactly the structured update with ProductID 11023 and CurrentStock 50,
and nothing else. -/
theorem c4_parse_stock_command :
    parse_update_query "Update product 11023 stock to 50"
      = [("ProductID", Val.intVal 11023), ("CurrentStock", Val.intVal 50)] :=
  stockCmdUpdates_eq

theorem apply_stockCmd_map (df : List Rec) (hne : df ≠ [])
    (hex : ∃ r ∈ df, r.ProductID = Val.intVal 11023) :
    apply_data_updates df stockCmdUpdates
      = (df.map (fun r => if r.ProductID = Val.intVal 11023
          then { r with CurrentStock := Val.intVal 50 } else r),
         Msg.success ["ProductID: 11023", "CurrentStock: 50"]) := by
  have happly : ∀ r : Rec, applyRec r stockCmdUpdates
      = { r with ProductID := Val.intVal 11023, CurrentStock := Val.intVal 50 } :=
    fun r => rfl
  have hm : resolveMask df stockCmdUpdates
      = some (df.map (fun r => decide (r.ProductID = Val.intVal 11023))) := rfl
  have hex2 : ∃ r ∈ df, decide (r.ProductID = Val.intVal 11023) = true := by
    obtain ⟨r, hr, he⟩ := hex
    exact ⟨r, hr, decide_eq_true he⟩
  rw [apply_masked_map df stockCmdUpdates _ hm hne hex2]
  have hmsg : (if (stockCmdUpdates.filter (fun kv => decide (kv.1 ∈ COLUMNS))).isEmpty
      then Msg.noValidUpdates
      else Msg.success ((stockCmdUpdates.filter (fun kv => decide (kv.1 ∈ COLUMNS))).map
        (fun kv => kv.1 ++ ": " ++ valStr kv.2)))
      = Msg.success ["ProductID: 11023", "CurrentStock: 50"] := rfl
  rw [hmsg]
  have hfun : ∀ r : Rec,
      (if decide (r.ProductID = Val.intVal 11023) then applyRec r stockCmdUpdates else r)
        = (if r.ProductID = Val.intVal 11023
            then { r with CurrentStock := Val.intVal 50 } else r) := by
    intro r
    by_cases hr : r.ProductID = Val.intVal 11023
    · rw [if_pos (decide_eq_true hr), if_pos hr, happly, ← hr]
    · rw [if_neg (by simpa using hr), if_neg hr]
  exact congrArg (fun f => (List.map f df, Msg.success ["ProductID: 11023", "CurrentStock: 50"]))
    (funext hfun)

/-- Claim C5: in a record set where ProductID 11023 identifies a unique
record (the store invariant), applying the parsed update of
`"Update product 11023 stock to 50"` sets that record's CurrentStock to
50, leaves its other fields unchanged, leaves every other record
unchanged, and reports success for exactly the two parsed fields. -/
theorem c5_stock_update_frame (df : List Rec) (i : Nat) (d0 : Rec)
    (hi : i < df.length)
    (hmatch : (df.getD i d0).ProductID = Val.intVal 11023)
    (huniq : ∀ j, j < df.length → j ≠ i → (df.getD j d0).ProductID ≠ Val.intVal 11023) :
    (apply_data_updates df stockCmdUpdates).1.length = df.length
    ∧ (apply_data_updates df stockCmdUpdates).1.getD i d0
        = { df.getD i d0 with CurrentStock := Val.intVal 50 }
    ∧ (∀ j, j < df.length → j ≠ i →
        (apply_data_updates df stockCmdUpdates).1.getD j d0 = df.getD j d0)
    ∧ (apply_data_updates df stockCmdUpdates).2
        = Msg.success ["ProductID: 11023", "CurrentStock: 50"] := by
  have hne : df ≠ [] := by
    intro h
    rw [h] at hi
    simp at hi
  have hmem : df.getD i d0 ∈ df := by
    rw [List.getD_eq_getElem?_getD, List.getElem?_eq_getElem hi]
    exact List.getElem_mem hi
  have hmap := apply_stockCmd_map df hne ⟨df.getD i d0, hmem, hmatch⟩
  rw [hmap]
  refine ⟨List.length_map _ _, ?_, ?_, rfl⟩
  · rw [getD_map_lt _ d0 d0 df i hi, if_pos hmatch]
  · intro j hj hji
    rw [getD_map_lt _ d0 d0 df j hj, if_neg (huniq j hj hji)]

/-- Witness for C5 on a two-row table where the second row is product
11023. -/
theorem c5_stock_update_frame_witness :
    (apply_data_updates [sampleRec2, sampleRec] stockCmdUpdates).1.getD 1 sampleRec
      = { sampleRec with CurrentStock := Val.intVal 50 }
    ∧ (apply_data_updates [sampleRec2, sampleRec] stockCmdUpdates).1.getD 0 sampleRec
      = sampleRec2 :=
  ⟨(c5_stock_update_frame [sampleRec2, sampleRec] 1 sampleRec (by decide) (by decide)
      (by decide)).2.1,
   (c5_stock_update_frame [sampleRec2, sampleRec] 1 sampleRec (by decide) (by decide)
      (by decide)).2.2.1 0 (by decide) (by decide)⟩

/-- Claim C6, counterexample: for the rename command
`"Update product name Anand as Dubey"` on a table whose two records both
match the name `anand` case-insensitively, the update is not applied to
the first matching record only — the second matching record is modified
as well. -/
theorem c6_counterexample :
    ((apply_data_updates twoAnands renameCmdUpdates).1.getD 1 sampleRec).ProductName
      = Val.strVal "dubey"
    ∧ (twoAnands.getD 1 sampleRec).ProductName = Val.strVal "anand"
    ∧ (apply_data_updates twoAnands renameCmdUpdates).1.getD 1 sampleRec
      ≠ twoAnands.getD 1 sampleRec := by
  refine ⟨rfl, rfl, ?_⟩
  decide

/-- Claim C6, amended: when the target selector is a product name (no
ProductID extracted), the update is applied to every record whose name
matches case-insensitively, not only the first — each matching record
receives all applicable field writes and each non-matching record is
untouched. -/
theorem c6_amended_all_name_matches (df : List Rec) (upds : List (String × Val))
    (oldn : String)
    (hpid : lookupVal upds "ProductID" = none)
    (hold : lookupVal upds "old_name" = some (Val.strVal oldn))
    (hne : df ≠ [])
    (hex : ∃ r ∈ df, nameMatches r oldn = true) :
    (apply_data_updates df upds).1
      = df.map (fun r => if nameMatches r oldn then applyRec r upds else r) := by
  have hm : resolveMask df upds = some (df.map (fun r => nameMatches r oldn)) := by
    unfold resolveMask
    rw [hpid, hold]
  rw [apply_masked_map df upds _ hm hne hex]

/-- Witness for the amended C6 theorem: on the two `anand`-named records,
both rows end up renamed to `dubey`. -/
theorem c6_amended_all_name_matches_witness :
    (apply_data_updates twoAnands renameCmdUpdates).1
      = twoAnands.map (fun r => if nameMatches r "anand" then applyRec r renameCmdUpdates else r) :=
  c6_amended_all_name_matches twoAnands renameCmdUpdates "anand" (by decide) (by decide)
    (by decide) ⟨twoAnands.getD 0 sampleRec, by decide, by decide⟩

/-- Claim C7: when ExpiryDate fails to parse as `YYYY-MM-DD`, projection
still succeeds — the expiry status degrades to the UNKNOWN label while
the stock, demand, distance and priority labels and the raw field values
are still computed and embedded in the projected document text. -/
theorem c7_unknown_expiry_degrades (pid : Int) (pname loc : String) (cs : Int)
    (lsd ed : String) (slm ts fd : Int)
    (hbad : parseDate ed = none) :
    expiry_status ed = "UNKNOWN EXPIRY"
    ∧ occursIn ("UNKNOWN EXPIRY" : String).data
        (create_document_text pid pname loc cs lsd ed slm ts fd).data
    ∧ occursIn (stock_status cs).data
        (create_document_text pid pname loc cs lsd ed slm ts fd).data
    ∧ occursIn (demand_status slm).data
        (create_document_text pid pname loc cs lsd ed slm ts fd).data
    ∧ occursIn (distance_status fd).data
        (create_document_text pid pname loc cs lsd ed slm ts fd).data
    ∧ occursIn (priority_label (stock_status cs) "UNKNOWN EXPIRY").data
        (create_document_text pid pname loc cs lsd ed slm ts fd).data
    ∧ occursIn ed.data
        (create_document_text pid pname loc cs lsd ed slm ts fd).data := by
  have hexp : expiry_status ed = "UNKNOWN EXPIRY" := by
    unfold expiry_status
    rw [hbad]
  rw [create_document_text_eq, hexp]
  unfold document_interior
  refine ⟨rfl, ?_, ?_, ?_, ?_, ?_, ?_⟩
  · apply occursIn_skip
    apply occursIn_skip
    apply occursIn_skip
    apply occursIn_skip
    apply occursIn_skip
    apply occursIn_skip
    apply occursIn_skip
    apply occursIn_skip
    apply occursIn_skip
    apply occursIn_skip
    apply occursIn_skip
    apply occursIn_skip
    apply occursIn_skip
    apply occursIn_skip
    apply occursIn_skip
    exact occursIn_at _ _
  · repeat first
      | exact occursIn_at _ _
      | exact occursIn_self _
      | apply occursIn_skip
  · repeat first
      | exact occursIn_at _ _
      | exact occursIn_self _
      | apply occursIn_skip
  · repeat first
      | exact occursIn_at _ _
      | exact occursIn_self _
      | apply occursIn_skip
  · repeat first
      | exact occursIn_at _ _
      | exact occursIn_self _
      | apply occursIn_skip
  · repeat first
      | exact occursIn_at _ _
      | exact occursIn_self _
      | apply occursIn_skip

/-- Witness for C7 on a concrete record whose ExpiryDate is the
unparseable string `"unknown"`. -/
theorem c7_unknown_expiry_degrades_witness :
    parseDate "unknown" = none
    ∧ expiry_status "unknown" = "UNKNOWN EXPIRY"
    ∧ occursIn ("UNKNOWN EXPIRY" : String).data
        (create_document_text 11023 "Organic Tomatoes" "SectionC" 15 "2025-09-18"
          "unknown" 80 420 15).data :=
  ⟨by decide,
   (c7_unknown_expiry_degrades 11023 "Organic Tomatoes" "SectionC" 15 "2025-09-18"
      "unknown" 80 420 15 (by decide)).1,
   (c7_unknown_expiry_degrades 11023 "Organic Tomatoes" "SectionC" 15 "2025-09-18"
      "unknown" 80 420 15 (by decide)).2.1⟩

/-- Claim C8: the prompt contains the grounding context built from the
retrieved chunks joined by the `\n\n---\n\n` delimiter; an empty
retrieval list yields the explicit `"No inventory data found."`
placeholder; and for retrieval results of the document-store shape
(dicts) the context is never the empty string. -/
theorem c8_prompt_context (docs : List Doc) (query : String) :
    occursIn (promptContext docs).data (build_warehouse_prompt docs query).data
    ∧ (docs = [] → promptContext docs = "No inventory data found.")
    ∧ ((∀ d ∈ docs, ∃ es, d = Doc.dict es) → promptContext docs ≠ "") := by
  refine ⟨?_, ?_, ?_⟩
  · unfold build_warehouse_prompt
    apply occursIn_skip
    exact occursIn_at _ _
  · intro h
    rw [h]
    rfl
  · intro hdict
    unfold promptContext
    cases hE : (extractParts docs).isEmpty
    · rw [if_neg (by rw [hE]; exact Bool.false_ne_true)]
      refine pyJoin_ne_empty _ _ ?_ (extractParts_dict_ne docs hdict)
      intro hnil
      rw [hnil] at hE
      cases hE
    · rw [if_pos (by rw [hE])]
      decide

/-- Witness for C8 on a one-chunk retrieval result of the dict shape. -/
theorem c8_prompt_context_witness :
    promptContext [Doc.dict [("text", "Product 11024: OUT OF STOCK")]] ≠ ""
    ∧ occursIn (promptContext [Doc.dict [("text", "Product 11024: OUT OF STOCK")]]).data
        (build_warehouse_prompt [Doc.dict [("text", "Product 11024: OUT OF STOCK")]]
          "which products are out of stock").data :=
  ⟨(c8_prompt_context [Doc.dict [("text", "Product 11024: OUT OF STOCK")]]
      "which products are out of stock").2.2
      (by intro d hd; rw [List.mem_singleton] at hd; exact ⟨_, hd⟩),
   (c8_prompt_context [Doc.dict [("text", "Product 11024: OUT OF STOCK")]]
      "which products are out of stock").1⟩

set_option maxRecDepth 8192 in
/-- Claim C9 (implicit): the reference date of the document projector is
the fixed constant 2025-09-22, not the wall clock — the projector equals
the reference-date-parameterised `project_at` pinned at that constant, so
the derived document is fully determined by the record's fields; and the
reference date genuinely matters: the same record projects differently
under a different reference date, so the pinning is what makes the output
time-independent. -/
theorem c9_fixed_reference_date :
    (∀ (pid : Int) (pname loc : String) (cs : Int) (lsd ed : String) (slm ts fd : Int),
      create_document_text pid pname loc cs lsd ed slm ts fd
        = project_at (2025, 9, 22) pid pname loc cs lsd ed slm ts fd)
    ∧ project_at (2025, 9, 22) 11023 "Organic Tomatoes" "SectionC" 15 "2025-09-18"
        "2025-09-23" 80 420 15
      ≠ project_at (2025, 10, 1) 11023 "Organic Tomatoes" "SectionC" 15 "2025-09-18"
        "2025-09-23" 80 420 15 := by
  refine ⟨fun pid pname loc cs lsd ed slm ts fd => rfl, ?_⟩
  decide

/-- Claim C10 (implicit): the update interpreter lowercases the whole
command before extraction, so every string value it extracts is already
lowercase (it equals its own lowercasing); in particular the command
`"Update Organic Apples location to SectionB"` parses to the Location
value `"sectionb"`. -/
theorem c10_lowercased_values :
    (∀ (q k v : String),
      (k, Val.strVal v) ∈ parse_update_query q → pyLowerS v = v)
    ∧ parse_update_query "Update Organic Apples location to SectionB"
      = [("Location", Val.strVal "sectionb")] :=
  ⟨fun _ _ _ h => parse_strVal_lower h, rfl⟩

/-- Witness for C10 at the claim's own example command. -/
theorem c10_lowercased_values_witness :
    ("Location", Val.strVal "sectionb")
      ∈ parse_update_query "Update Organic Apples location to SectionB"
    ∧ pyLowerS "sectionb" = "sectionb" :=
  ⟨by decide, c10_lowercased_values.1 "Update Organic Apples location to SectionB"
      "Location" "sectionb" (by decide)⟩

/-- Witness for the amended C1 theorem at a concrete dataframe and path. -/
theorem c1_amended_atomicity_witness :
    isWriteTempThenRename (atomic_csv_update_ops [sampleRec] "./data/inventory.csv")
      "./data/inventory.csv" = true
    ∧ writesDirectly (save_inventory_data_ops [sampleRec]) CSV_FILE_PATH = true :=
  ⟨(c1_amended_atomicity [sampleRec] "./data/inventory.csv").1,
   (c1_amended_atomicity [sampleRec] "./data/inventory.csv").2.2⟩

/-- Witness for C9 at a concrete record. -/
theorem c9_fixed_reference_date_witness :
    create_document_text 11023 "Organic Tomatoes" "SectionC" 15 "2025-09-18"
      "2025-09-23" 80 420 15
    = project_at (2025, 9, 22) 11023 "Organic Tomatoes" "SectionC" 15 "2025-09-18"
      "2025-09-23" 80 420 15 :=
  c9_fixed_reference_date.1 11023 "Organic Tomatoes" "SectionC" 15 "2025-09-18"
    "2025-09-23" 80 420 15
